import Mathlib

/-!
Shallow embedding of the fastwebsockets frame codec and connection state
machine (`src/frame.rs`, `src/lib.rs`).  Bytes are `Nat` (< 256 on the wire),
byte buffers are `List Nat`, the inbound transport is a list of chunks
(`List (List Nat)`), each chunk being the bytes one `read` call delivers, and
the outbound transport is the list of bytes written so far.  Fallible Rust
code returns `Except WsError`; the `todo!()` branch of `Frame::writev` and
the (unreachable in the claims' scenarios) divergence of the read loops are
marked by dedicated error values.
-/

namespace FastWS

/-- `OpCode` from `src/frame.rs` (the `repr_u8!` enum). -/
inductive OpCode where
  | Continuation
  | Text
  | Binary
  | Close
  | Ping
  | Pong
deriving DecidableEq

/-- The numeric value of an opcode (`self.opcode as u8`). -/
def OpCode.toU8 : OpCode → Nat
  | .Continuation => 0
  | .Text => 1
  | .Binary => 2
  | .Close => 8
  | .Ping => 9
  | .Pong => 10

/-- `TryFrom<u8> for OpCode` generated by `repr_u8!`: the value must be one of
the six member values. -/
def OpCode.tryFrom (v : Nat) : Except Unit OpCode :=
  if v = 0 then .ok .Continuation
  else if v = 1 then .ok .Text
  else if v = 2 then .ok .Binary
  else if v = 8 then .ok .Close
  else if v = 9 then .ok .Ping
  else if v = 10 then .ok .Pong
  else .error ()

/-- `is_control` from `src/frame.rs`. -/
def is_control (opcode : OpCode) : Bool :=
  match opcode with
  | .Close | .Ping | .Pong => true
  | _ => false

/-- The error values the library produces (each corresponds to one `Err`
string or failure mode in `src/lib.rs` / `src/frame.rs`); `outOfFuel` marks
loop divergence (never reached in the scenarios of the claims) and
`todoUnimplemented` the `todo!()` panic branch of `Frame::writev`. -/
inductive WsError where
  | eof
  | reservedBits
  | invalidOpcode
  | controlFragmented
  | pingTooLarge
  | frameTooLarge
  | invalidCloseFrame
  | invalidCloseCode
  | invalidUtf8
  | todoUnimplemented
  | outOfFuel
deriving DecidableEq

/-- `Frame` from `src/frame.rs`. -/
structure Frame where
  fin : Bool
  opcode : OpCode
  mask : Option (List Nat)
  payload : List Nat
deriving DecidableEq

/-- `Frame::new`. -/
def Frame.new (fin : Bool) (opcode : OpCode) (mask : Option (List Nat))
    (payload : List Nat) : Frame :=
  ⟨fin, opcode, mask, payload⟩

/-- `Frame::text`. -/
def Frame.text (payload : List Nat) : Frame :=
  ⟨true, .Text, none, payload⟩

/-- `Frame::binary`. -/
def Frame.binary (payload : List Nat) : Frame :=
  ⟨true, .Binary, none, payload⟩

/-- Big-endian bytes of a `u16` (`(code as u16).to_be_bytes()`). -/
def be2 (n : Nat) : List Nat :=
  [n / 256 % 256, n % 256]

/-- Big-endian bytes of a `u64` (`(len as u64).to_be_bytes()`). -/
def be8 (n : Nat) : List Nat :=
  [n / 256 ^ 7 % 256, n / 256 ^ 6 % 256, n / 256 ^ 5 % 256, n / 256 ^ 4 % 256,
   n / 256 ^ 3 % 256, n / 256 ^ 2 % 256, n / 256 % 256, n % 256]

/-- `Frame::close`: payload is the big-endian close code followed by the
reason bytes. -/
def Frame.close (code : Nat) (reason : List Nat) : Frame :=
  ⟨true, .Close, none, be2 code ++ reason⟩

/-- `Frame::close_raw`. -/
def Frame.close_raw (payload : List Nat) : Frame :=
  ⟨true, .Close, none, payload⟩

/-- `Frame::pong`. -/
def Frame.pong (payload : List Nat) : Frame :=
  ⟨true, .Pong, none, payload⟩

/-- Whether a byte is a UTF-8 continuation byte (`0x80..=0xBF`). -/
def utf8Cont (b : Nat) : Bool :=
  0x80 ≤ b && b ≤ 0xBF

/-- Validity of a byte sequence as UTF-8, exactly as `std::str::from_utf8`
checks it (well-formed RFC 3629 UTF-8: no overlong forms, no surrogates,
nothing above U+10FFFF). -/
def utf8Valid : List Nat → Bool
  | [] => true
  | b :: rest =>
    if b ≤ 0x7F then utf8Valid rest
    else if 0xC2 ≤ b ∧ b ≤ 0xDF then
      match rest with
      | c1 :: r => utf8Cont c1 && utf8Valid r
      | [] => false
    else if b = 0xE0 then
      match rest with
      | c1 :: c2 :: r => (0xA0 ≤ c1 && c1 ≤ 0xBF) && utf8Cont c2 && utf8Valid r
      | _ => false
    else if (0xE1 ≤ b ∧ b ≤ 0xEC) ∨ b = 0xEE ∨ b = 0xEF then
      match rest with
      | c1 :: c2 :: r => utf8Cont c1 && utf8Cont c2 && utf8Valid r
      | _ => false
    else if b = 0xED then
      match rest with
      | c1 :: c2 :: r => (0x80 ≤ c1 && c1 ≤ 0x9F) && utf8Cont c2 && utf8Valid r
      | _ => false
    else if b = 0xF0 then
      match rest with
      | c1 :: c2 :: c3 :: r =>
        (0x90 ≤ c1 && c1 ≤ 0xBF) && utf8Cont c2 && utf8Cont c3 && utf8Valid r
      | _ => false
    else if 0xF1 ≤ b ∧ b ≤ 0xF3 then
      match rest with
      | c1 :: c2 :: c3 :: r =>
        utf8Cont c1 && utf8Cont c2 && utf8Cont c3 && utf8Valid r
      | _ => false
    else if b = 0xF4 then
      match rest with
      | c1 :: c2 :: c3 :: r =>
        (0x80 ≤ c1 && c1 ≤ 0x8F) && utf8Cont c2 && utf8Cont c3 && utf8Valid r
      | _ => false
    else false

/-- `Frame::is_utf8`. -/
def Frame.is_utf8 (f : Frame) : Bool :=
  utf8Valid f.payload

/-- Modelled from the spec: `src/mask.rs` is not among the repository's
files; the spec's Masker contract is "`unmask(buf, key[4])` XORs
`buf[i] ^= key[i mod 4]` for every byte". -/
def maskUnmask (payload : List Nat) (key : List Nat) : List Nat :=
  payload.mapIdx fun i b => b ^^^ key.getD (i % 4) 0

/-- `Frame::unmask`: XORs the payload with the key when a mask is present.
The `mask` field itself is left as it was. -/
def Frame.unmask (f : Frame) : Frame :=
  match f.mask with
  | some key => { f with payload := maskUnmask f.payload key }
  | none => f

/-- `Frame::fmt_head`: the 2, 4 or 10 head bytes of the encoded frame
(`head[0] = (fin as u8) << 7 | (opcode as u8)`, then the length class). -/
def Frame.fmt_head (f : Frame) : List Nat :=
  let b0 := (cond f.fin 128 0) + f.opcode.toU8
  let len := f.payload.length
  if len < 126 then [b0, len]
  else if len < 65536 then [b0, 126] ++ be2 len
  else [b0, 127] ++ be8 len

/-- `Frame::write`: grow the scratch buffer to at least `len + 10`, write the
head and the payload into it, and return the slice `buf[..size + len]`
together with the new buffer contents. -/
def Frame.write (f : Frame) (buf : List Nat) : List Nat × List Nat :=
  let len := f.payload.length
  let buf1 := if buf.length < len + 10
    then buf ++ List.replicate (len + 10 - buf.length) 0 else buf
  let head := f.fmt_head
  let buf2 := head ++ f.payload ++ buf1.drop (head.length + len)
  (buf2.take (head.length + len), buf2)

/-- `Frame::writev`: the vectored-write path emits the head and the payload as
two `IoSlice`s for a `Text` frame; every other opcode reaches the `todo!()`
branch, modelled as `none`. -/
def Frame.writev (f : Frame) : Option (List (List Nat)) :=
  match f.opcode with
  | .Text => some [f.fmt_head, f.payload]
  | _ => none

/-- Modelled from the spec: `src/close.rs` (`CloseCode::from(u16)` and
`CloseCode::is_allowed`) is not among the repository's files.  The spec says
the registry "recognizes the standard 1000-series codes plus the application
range 3000–4999" and that `is_allowed()` "rejects 1004, 1005, 1006, 1015 and
anything below 1000 or in the unused reserved ranges". -/
def closeCodeAllowed (code : Nat) : Bool :=
  if code < 1000 then false
  else if code = 1004 ∨ code = 1005 ∨ code = 1006 ∨ code = 1015 then false
  else if 1000 ≤ code ∧ code ≤ 1015 then true
  else if 3000 ≤ code ∧ code ≤ 4999 then true
  else false

/-- The `WebSocket<S>` state from `src/lib.rs`, minus the stream handle
(the transport is threaded through the operations explicitly). -/
structure WebSocket where
  write_buffer : List Nat
  partial_write : Option (List Nat)
  read_buffer : Option (List Nat)
  vectored : Bool
  auto_close : Bool
  auto_pong : Bool
  max_message_size : Nat
deriving DecidableEq

/-- `WebSocket::after_handshake`: the state of a fresh connection. -/
def after_handshake : WebSocket :=
  { write_buffer := []
    partial_write := none
    read_buffer := none
    vectored := false
    auto_close := true
    auto_pong := true
    max_message_size := 64 <<< 20 }

/-- One `while nread < target { nread += stream.read(&mut head[nread..]) }`
loop: `acc` is the filled prefix of the 106-byte staging buffer, so each read
takes at most `106 - acc.length` bytes from the front chunk, pushing any
remainder back.  `fuel` bounds the iterations; the callers pass enough for
every terminating run of the loop. -/
def fillTo (fuel target : Nat) (acc : List Nat) (chunks : List (List Nat)) :
    Except WsError (List Nat × List (List Nat)) :=
  match fuel with
  | 0 => .error .outOfFuel
  | fuel + 1 =>
    if target ≤ acc.length then .ok (acc, chunks)
    else
      match chunks with
      | [] => .error .eof
      | c :: rest =>
        let space := 106 - acc.length
        let taken := c.take space
        let rem := c.drop space
        fillTo fuel target (acc ++ taken) (if rem.isEmpty then rest else rem :: rest)

/-- `stream.read_exact(&mut buf[..n])`: take exactly `n` bytes off the front
of the chunk stream, failing if fewer are available. -/
def readExact (fuel n : Nat) (chunks : List (List Nat)) :
    Except WsError (List Nat × List (List Nat)) :=
  match fuel with
  | 0 => .error .outOfFuel
  | fuel + 1 =>
    if n = 0 then .ok ([], chunks)
    else
      match chunks with
      | [] => .error .eof
      | c :: rest =>
        if n ≤ c.length then
          .ok (c.take n, if c.length = n then rest else c.drop n :: rest)
        else
          match readExact fuel (n - c.length) rest with
          | .error e => .error e
          | .ok (bs, chunks') => .ok (c ++ bs, chunks')

/-- The tail of `WebSocket::parse_frame_header` once the header bytes are
staged: the mask capture, the validation checks, and the payload extraction
(including the over-read bookkeeping into `read_buffer`).  Factored out of
`parse_frame_header` under its own name so the branch analysis of the proofs
stays readable; `acc3` is the filled prefix of the staging buffer (`nread`
bytes) and `chunks3` the remaining inbound stream. -/
def parseTail (ws0 : WebSocket) (maxSize : Nat) (fin : Bool) (opcode : OpCode)
    (masked : Bool) (extra length : Nat) (acc3 : List Nat)
    (chunks3 : List (List Nat)) :
    Except WsError (Frame × WebSocket × List (List Nat)) :=
  let mask : Option (List Nat) :=
    if masked then some ((acc3.drop (2 + extra)).take 4) else none
  if is_control opcode && !fin then .error .controlFragmented
  else if opcode = .Ping ∧ 125 < length then .error .pingTooLarge
  else if maxSize ≤ length then .error .frameTooLarge
  else
    let required := 2 + extra + (if masked then 4 else 0) + length
    if acc3.length < required then
      match readExact (chunks3.length + 2) (required - acc3.length) chunks3 with
      | .error e => .error e
      | .ok (tail, chunks4) =>
        .ok (⟨fin, opcode, mask, (acc3 ++ tail).drop (required - length)⟩,
             ws0, chunks4)
    else if required < acc3.length then
      .ok (⟨fin, opcode, mask, (acc3.take required).drop (required - length)⟩,
           { ws0 with read_buffer := some (acc3.drop required) }, chunks3)
    else
      .ok (⟨fin, opcode, mask, (acc3.take required).drop (required - length)⟩,
           ws0, chunks3)

/-- `WebSocket::parse_frame_header`: returns the parsed frame, the connection
state (with `read_buffer` consumed and, when the staging buffer over-read past
the frame's end, refilled with the trailing bytes) and the rest of the inbound
chunk stream. -/
def parse_frame_header (ws : WebSocket) (chunks : List (List Nat)) :
    Except WsError (Frame × WebSocket × List (List Nat)) :=
  let acc0 := ws.read_buffer.getD []
  let ws0 : WebSocket := { ws with read_buffer := none }
  match fillTo (chunks.length + 2) 2 acc0 chunks with
  | .error e => .error e
  | .ok (acc1, chunks1) =>
    let b0 := acc1.getD 0 0
    let fin : Bool := decide (b0 &&& 128 ≠ 0)
    if b0 &&& 64 ≠ 0 ∨ b0 &&& 32 ≠ 0 ∨ b0 &&& 16 ≠ 0 then .error .reservedBits
    else
      match OpCode.tryFrom (b0 &&& 15) with
      | .error _ => .error .invalidOpcode
      | .ok opcode =>
        let b1 := acc1.getD 1 0
        let masked : Bool := decide (b1 &&& 128 ≠ 0)
        let length_code := b1 &&& 127
        let extra := if length_code = 126 then 2
          else if length_code = 127 then 8 else 0
        match (if 0 < extra then fillTo (chunks1.length + 2) (2 + extra) acc1 chunks1
               else .ok (acc1, chunks1)) with
        | .error e => .error e
        | .ok (acc2, chunks2) =>
          let length := if extra = 2 then acc2.getD 2 0 * 256 + acc2.getD 3 0
            else if extra = 8 then
              acc2.getD 2 0 * 256 ^ 7 + acc2.getD 3 0 * 256 ^ 6 +
              acc2.getD 4 0 * 256 ^ 5 + acc2.getD 5 0 * 256 ^ 4 +
              acc2.getD 6 0 * 256 ^ 3 + acc2.getD 7 0 * 256 ^ 2 +
              acc2.getD 8 0 * 256 + acc2.getD 9 0
            else length_code
          match (if masked then fillTo (chunks2.length + 2) (2 + extra + 4) acc2 chunks2
                 else .ok (acc2, chunks2)) with
          | .error e => .error e
          | .ok (acc3, chunks3) =>
            parseTail ws0 ws.max_message_size fin opcode masked extra length
              acc3 chunks3

/-- `WebSocket::write_frame`: drains a pending partial write (and returns
without encoding the argument frame); otherwise emits the frame either
vectored or contiguously.  Returns the new state and the bytes written to the
transport by this call. -/
def write_frame (ws : WebSocket) (f : Frame) :
    Except WsError (WebSocket × List Nat) :=
  match ws.partial_write with
  | some tail => .ok ({ ws with partial_write := none }, tail)
  | none =>
    if ws.vectored then
      match f.writev with
      | some slices => .ok (ws, slices.flatten)
      | none => .error .todoUnimplemented
    else
      let r := f.write ws.write_buffer
      .ok ({ ws with write_buffer := r.2 }, r.1)

/-- `WebSocket::read_frame`: the surfaced-frame loop.  `out` accumulates the
bytes written to the transport (auto pong, close echo); `fuel` bounds the
loop iterations. -/
def read_frame (fuel : Nat) (ws : WebSocket) (chunks : List (List Nat))
    (out : List Nat) :
    Except WsError (Frame × WebSocket × List (List Nat) × List Nat) :=
  match fuel with
  | 0 => .error .outOfFuel
  | fuel + 1 =>
    match parse_frame_header ws chunks with
    | .error e => .error e
    | .ok (f0, ws1, chunks1) =>
      let f := f0.unmask
      match f.opcode with
      | .Close =>
        if ws1.auto_close then
          let checked : Except WsError Unit :=
            if f.payload.length = 0 then .ok ()
            else if f.payload.length = 1 then .error .invalidCloseFrame
            else
              let code := f.payload.getD 0 0 * 256 + f.payload.getD 1 0
              if utf8Valid (f.payload.drop 2) then
                if closeCodeAllowed code then .ok ()
                else
                  match write_frame ws1 (Frame.close 1002 (f.payload.drop 2)) with
                  | .error e => .error e
                  | .ok _ => .error .invalidCloseCode
              else .error .invalidUtf8
          match checked with
          | .error e => .error e
          | .ok () =>
            match write_frame ws1 (Frame.close_raw f.payload) with
            | .error e => .error e
            | .ok (ws2, w) => .ok (f, ws2, chunks1, out ++ w)
        else .ok (f, ws1, chunks1, out)
      | .Ping =>
        if ws1.auto_pong then
          match write_frame ws1 (Frame.pong f.payload) with
          | .error e => .error e
          | .ok (ws2, w) => read_frame fuel ws2 chunks1 (out ++ w)
        else .ok (f, ws1, chunks1, out)
      | .Text =>
        if f.fin && !f.is_utf8 then .error .invalidUtf8
        else .ok (f, ws1, chunks1, out)
      | .Pong => read_frame fuel ws1 chunks1 out
      | _ => .ok (f, ws1, chunks1, out)

/-- The encoded bytes of an (outbound, unmasked) frame: the head emitted by
`fmt_head` followed by the payload bytes. -/
def encodeFrame (f : Frame) : List Nat :=
  f.fmt_head ++ f.payload

/-- The frame a `read_frame` result surfaces, if any. -/
def surfacedFrame
    (r : Except WsError (Frame × WebSocket × List (List Nat) × List Nat)) :
    Option Frame :=
  match r with
  | .ok (f, _, _, _) => some f
  | .error _ => none

/-! ### Basic lemmas about the embedded operations -/

theorem unmask_mask (f : Frame) : f.unmask.mask = f.mask := by
  obtain ⟨fin, op, mask, payload⟩ := f
  cases mask <;> rfl

theorem unmask_fin (f : Frame) : f.unmask.fin = f.fin := by
  obtain ⟨fin, op, mask, payload⟩ := f
  cases mask <;> rfl

theorem unmask_opcode (f : Frame) : f.unmask.opcode = f.opcode := by
  obtain ⟨fin, op, mask, payload⟩ := f
  cases mask <;> rfl

theorem unmask_payload_length (f : Frame) :
    f.unmask.payload.length = f.payload.length := by
  obtain ⟨fin, op, mask, payload⟩ := f
  cases mask <;> simp [Frame.unmask, maskUnmask]

theorem unmask_of_none (f : Frame) (h : f.mask = none) : f.unmask = f := by
  unfold Frame.unmask
  rw [h]

/-- `Frame::write` returns exactly the head followed by the payload. -/
theorem frame_write_fst (f : Frame) (buf : List Nat) :
    (f.write buf).1 = f.fmt_head ++ f.payload := by
  unfold Frame.write
  have h : f.fmt_head ++ f.payload ++
      (if buf.length < f.payload.length + 10
        then buf ++ List.replicate (f.payload.length + 10 - buf.length) 0
        else buf).drop (f.fmt_head.length + f.payload.length)
      = (f.fmt_head ++ f.payload) ++
        (if buf.length < f.payload.length + 10
          then buf ++ List.replicate (f.payload.length + 10 - buf.length) 0
          else buf).drop (f.fmt_head.length + f.payload.length) := by
    simp [List.append_assoc]
  simp only [h]
  rw [show f.fmt_head.length + f.payload.length = (f.fmt_head ++ f.payload).length by
    simp]
  exact List.take_left _ _

/-- `readExact` returns exactly as many bytes as requested. -/
theorem readExact_length (fuel : Nat) :
    ∀ (n : Nat) (chunks : List (List Nat)) (bs : List Nat)
      (c' : List (List Nat)),
      readExact fuel n chunks = .ok (bs, c') → bs.length = n := by
  induction fuel with
  | zero => intro n chunks bs c' h; exact Except.noConfusion h
  | succ m ih =>
    intro n chunks bs c' h
    cases chunks with
    | nil =>
      simp only [readExact] at h
      by_cases h0 : n = 0
      · rw [if_pos h0] at h
        injection h with h'
        injection h' with h1 h2
        subst h1
        simp [h0]
      · rw [if_neg h0] at h
        exact Except.noConfusion h
    | cons c rest =>
      simp only [readExact] at h
      by_cases h0 : n = 0
      · rw [if_pos h0] at h
        injection h with h'
        injection h' with h1 h2
        subst h1
        simp [h0]
      · rw [if_neg h0] at h
        by_cases h1 : n ≤ c.length
        · rw [if_pos h1] at h
          injection h with h'
          injection h' with h2 h3
          subst h2
          simp [List.length_take, Nat.min_eq_left h1]
        · rw [if_neg h1] at h
          cases heq : readExact m (n - c.length) rest with
          | error e => rw [heq] at h; exact Except.noConfusion h
          | ok p =>
            obtain ⟨bs', chunks'⟩ := p
            rw [heq] at h
            simp only [] at h
            injection h with h'
            injection h' with h2 h3
            subst h2
            have hb := ih _ _ _ _ heq
            simp only [List.length_append, hb]
            omega

/-- Everything `parseTail` guarantees about a successfully parsed frame: the
frame's `fin`, `opcode` and payload length, the control-frame guards that
passed, and the connection fields other than `read_buffer` being preserved. -/
theorem parseTail_ok (ws0 : WebSocket) (maxSize : Nat) (fin : Bool)
    (opcode : OpCode) (masked : Bool) (extra length : Nat) (acc3 : List Nat)
    (chunks3 : List (List Nat)) (g : Frame) (ws1 : WebSocket)
    (c1 : List (List Nat))
    (h : parseTail ws0 maxSize fin opcode masked extra length acc3 chunks3
      = .ok (g, ws1, c1)) :
    g.fin = fin ∧ g.opcode = opcode ∧ g.payload.length = length ∧
    (is_control opcode = true → fin = true) ∧
    (opcode = .Ping → length ≤ 125) ∧
    (ws1.write_buffer = ws0.write_buffer ∧
     ws1.partial_write = ws0.partial_write ∧ ws1.vectored = ws0.vectored ∧
     ws1.auto_close = ws0.auto_close ∧ ws1.auto_pong = ws0.auto_pong ∧
     ws1.max_message_size = ws0.max_message_size) := by
  simp only [parseTail] at h
  by_cases h1 : (is_control opcode && !fin) = true
  · rw [if_pos h1] at h; exact Except.noConfusion h
  · rw [if_neg h1] at h
    by_cases h2 : opcode = .Ping ∧ 125 < length
    · rw [if_pos h2] at h; exact Except.noConfusion h
    · rw [if_neg h2] at h
      by_cases h3 : maxSize ≤ length
      · rw [if_pos h3] at h; exact Except.noConfusion h
      · rw [if_neg h3] at h
        have hguard : is_control opcode = true → fin = true := by
          intro hco
          cases hfin : fin
          · exact absurd (by simp [hco, hfin]) h1
          · rfl
        have hping : opcode = .Ping → length ≤ 125 := by
          intro hp
          by_contra hgt
          exact h2 ⟨hp, by omega⟩
        by_cases h4 :
            acc3.length < 2 + extra + (if masked then 4 else 0) + length
        · rw [if_pos h4] at h
          cases heq : readExact (chunks3.length + 2)
              (2 + extra + (if masked then 4 else 0) + length - acc3.length)
              chunks3 with
          | error e => rw [heq] at h; exact Except.noConfusion h
          | ok p =>
            obtain ⟨tail, chunks4⟩ := p
            rw [heq] at h
            have hlen := readExact_length _ _ _ _ _ heq
            injection h with h'
            injection h' with hg h''
            injection h'' with hws hc
            subst hg; subst hws
            refine ⟨rfl, rfl, ?_, hguard, hping, rfl, rfl, rfl, rfl, rfl, rfl⟩
            simp only [List.length_drop, List.length_append, hlen]
            omega
        · rw [if_neg h4] at h
          by_cases h5 :
              2 + extra + (if masked then 4 else 0) + length < acc3.length
          · rw [if_pos h5] at h
            injection h with h'
            injection h' with hg h''
            injection h'' with hws hc
            subst hg; subst hws
            refine ⟨rfl, rfl, ?_, hguard, hping, rfl, rfl, rfl, rfl, rfl, rfl⟩
            simp only [List.length_drop, List.length_take]
            omega
          · rw [if_neg h5] at h
            injection h with h'
            injection h' with hg h''
            injection h'' with hws hc
            subst hg; subst hws
            refine ⟨rfl, rfl, ?_, hguard, hping, rfl, rfl, rfl, rfl, rfl, rfl⟩
            simp only [List.length_drop, List.length_take]
            omega

/-- What every successful `parse_frame_header` guarantees: a parsed control
frame has `fin = true`, a parsed Ping frame has payload length at most 125,
and the fields of the connection state other than `read_buffer` are
untouched. -/
theorem parse_frame_header_ok (ws : WebSocket) (chunks : List (List Nat))
    (g : Frame) (ws1 : WebSocket) (c1 : List (List Nat))
    (h : parse_frame_header ws chunks = .ok (g, ws1, c1)) :
    (is_control g.opcode = true → g.fin = true) ∧
    (g.opcode = .Ping → g.payload.length ≤ 125) ∧
    ws1.write_buffer = ws.write_buffer ∧ ws1.partial_write = ws.partial_write ∧
    ws1.vectored = ws.vectored ∧ ws1.auto_close = ws.auto_close ∧
    ws1.auto_pong = ws.auto_pong ∧
    ws1.max_message_size = ws.max_message_size := by
  simp only [parse_frame_header] at h
  repeat' split at h
  all_goals try exact Except.noConfusion h
  all_goals
    obtain ⟨hgf, hgo, hgl, hguard, hping, hwb, hpw, hv, hac, hap, hms⟩ :=
      parseTail_ok _ _ _ _ _ _ _ _ _ _ _ _ h
  all_goals
    exact ⟨fun hc => hgf.trans (hguard (hgo ▸ hc)),
           fun hc => hgl ▸ hping (hgo ▸ hc),
           hwb, hpw, hv, hac, hap, hms⟩

/-- The shape of every frame `read_frame` surfaces: it is the unmasking of a
frame delivered by `parse_frame_header` (hence inherits the parse-time
guards), a surfaced final Text frame has a valid-UTF-8 payload, and a Pong
frame is never surfaced. -/
theorem read_frame_surfaced :
    ∀ (fuel : Nat) (ws : WebSocket) (chunks : List (List Nat)) (out : List Nat)
      (f : Frame) (ws' : WebSocket) (c' : List (List Nat)) (o' : List Nat),
      read_frame fuel ws chunks out = .ok (f, ws', c', o') →
      (∃ g : Frame, f = g.unmask ∧
        (is_control g.opcode = true → g.fin = true) ∧
        (g.opcode = .Ping → g.payload.length ≤ 125)) ∧
      (f.opcode = .Text → f.fin = true → f.is_utf8 = true) ∧
      f.opcode ≠ .Pong := by
  intro fuel
  induction fuel with
  | zero => intro ws chunks out f ws' c' o' h; exact Except.noConfusion h
  | succ n ih =>
    intro ws chunks out f ws' c' o' h
    simp only [read_frame] at h
    cases hp : parse_frame_header ws chunks with
    | error e => rw [hp] at h; exact Except.noConfusion h
    | ok t =>
      obtain ⟨g, ws1, c1⟩ := t
      rw [hp] at h
      try simp only [] at h
      obtain ⟨hico, hping, -⟩ := parse_frame_header_ok _ _ _ _ _ hp
      revert h
      cases hop : (Frame.unmask g).opcode <;> intro h <;> try simp only [] at h
      case Continuation =>
        injection h with h'
        injection h' with h1 h2
        refine ⟨⟨g, h1.symm, hico, hping⟩, ?_, ?_⟩
        · intro ht
          rw [← h1, hop] at ht
          exact OpCode.noConfusion ht
        · rw [← h1, hop]
          exact fun hq => OpCode.noConfusion hq
      case Binary =>
        injection h with h'
        injection h' with h1 h2
        refine ⟨⟨g, h1.symm, hico, hping⟩, ?_, ?_⟩
        · intro ht
          rw [← h1, hop] at ht
          exact OpCode.noConfusion ht
        · rw [← h1, hop]
          exact fun hq => OpCode.noConfusion hq
      case Close =>
        have finish : Frame.unmask g = f →
            (∃ g₀ : Frame, f = g₀.unmask ∧
              (is_control g₀.opcode = true → g₀.fin = true) ∧
              (g₀.opcode = .Ping → g₀.payload.length ≤ 125)) ∧
            (f.opcode = .Text → f.fin = true → f.is_utf8 = true) ∧
            f.opcode ≠ .Pong := by
          intro h1
          refine ⟨⟨g, h1.symm, hico, hping⟩, ?_, ?_⟩
          · intro ht
            rw [← h1, hop] at ht
            exact OpCode.noConfusion ht
          · rw [← h1, hop]
            exact fun hq => OpCode.noConfusion hq
        by_cases hac : ws1.auto_close = true
        · rw [if_pos hac] at h
          repeat' split at h
          all_goals try exact Except.noConfusion h
          all_goals
            injection h with h'
          all_goals
            injection h' with h1 h2
          all_goals exact finish h1
        · rw [if_neg hac] at h
          injection h with h'
          injection h' with h1 h2
          exact finish h1
      case Ping =>
        by_cases hap : ws1.auto_pong = true
        · rw [if_pos hap] at h
          cases hw : write_frame ws1 (Frame.pong (Frame.unmask g).payload) with
          | error e => rw [hw] at h; exact Except.noConfusion h
          | ok p =>
            obtain ⟨ws2, w⟩ := p
            rw [hw] at h
            try simp only [] at h
            exact ih _ _ _ _ _ _ _ h
        · rw [if_neg hap] at h
          injection h with h'
          injection h' with h1 h2
          refine ⟨⟨g, h1.symm, hico, hping⟩, ?_, ?_⟩
          · intro ht
            rw [← h1, hop] at ht
            exact OpCode.noConfusion ht
          · rw [← h1, hop]
            exact fun hq => OpCode.noConfusion hq
      case Text =>
        by_cases hut : ((Frame.unmask g).fin && !(Frame.unmask g).is_utf8) = true
        · rw [if_pos hut] at h
          exact Except.noConfusion h
        · rw [if_neg hut] at h
          injection h with h'
          injection h' with h1 h2
          refine ⟨⟨g, h1.symm, hico, hping⟩, ?_, ?_⟩
          · intro ht hfin
            rw [← h1] at hfin ⊢
            cases hu : (Frame.unmask g).is_utf8
            · exact absurd (by simp [hfin, hu]) hut
            · rfl
          · rw [← h1, hop]
            exact fun hq => OpCode.noConfusion hq
      case Pong =>
        exact ih _ _ _ _ _ _ _ h

/-! ### C4: write_frame with a pending partial write -/

/-- C4: if `partial_write` holds a pending tail when `write_frame(F)` is
called, `write_frame` writes exactly that tail, clears `partial_write`, and
returns `Ok` without encoding or writing `F` itself (the result does not
depend on `F` at all, and no other field of the state changes). -/
theorem c4_partial_write_drain (ws : WebSocket) (f : Frame) (p : List Nat)
    (h : ws.partial_write = some p) :
    write_frame ws f = .ok ({ ws with partial_write := none }, p) := by
  unfold write_frame
  rw [h]

theorem c4_witness :
    write_frame { after_handshake with partial_write := some [9, 9] }
        (Frame.text [1])
      = .ok ({ after_handshake with partial_write := none }, [9, 9]) :=
  c4_partial_write_drain _ _ _ rfl

/-! ### C5: vectored writes -/

/-- C5 counterexample: with vectored mode enabled, `write_frame` on a Binary
data frame does not emit head and payload as two IoSlices: `Frame::writev`
reaches the `todo!()` (unimplemented) branch. -/
theorem c5_counterexample :
    write_frame { after_handshake with vectored := true } (Frame.binary [1, 2, 3])
      = .error .todoUnimplemented := by rfl

/-- C5 amended: with vectored mode enabled, `write_frame` on a Text frame
emits the encoded head and the untouched payload as two independent IoSlices
to the transport; the vectored path is only implemented for Text, and a
Binary frame reaches the `todo!()` branch. -/
theorem c5_vectored_text (ws : WebSocket) (f : Frame)
    (hpw : ws.partial_write = none) (hv : ws.vectored = true)
    (hop : f.opcode = .Text) :
    f.writev = some [f.fmt_head, f.payload] ∧
      write_frame ws f = .ok (ws, f.fmt_head ++ f.payload) := by
  have hw : f.writev = some [f.fmt_head, f.payload] := by
    unfold Frame.writev
    rw [hop]
  refine ⟨hw, ?_⟩
  unfold write_frame
  rw [hpw, hv]
  simp [hw]

theorem c5_witness :
    (Frame.text [104, 105]).writev
        = some [(Frame.text [104, 105]).fmt_head, (Frame.text [104, 105]).payload] ∧
      write_frame { after_handshake with vectored := true } (Frame.text [104, 105])
        = .ok ({ after_handshake with vectored := true },
               (Frame.text [104, 105]).fmt_head ++ (Frame.text [104, 105]).payload) :=
  c5_vectored_text _ _ rfl rfl rfl

/-! ### C7: close frames with auto_close disabled -/

/-- C7: when `auto_close` is false, `read_frame` returns any parsed Close
frame as-is (after payload unmasking): no close-code extraction, no UTF-8
validation, no echo frame written (the write trace is unchanged) — in
particular no error is raised regardless of the payload. -/
theorem c7_no_auto_close (fuel : Nat) (ws : WebSocket)
    (chunks : List (List Nat)) (out : List Nat) (g : Frame) (ws1 : WebSocket)
    (c1 : List (List Nat))
    (hac : ws.auto_close = false)
    (hp : parse_frame_header ws chunks = .ok (g, ws1, c1))
    (hop : g.opcode = .Close) :
    read_frame (fuel + 1) ws chunks out = .ok (g.unmask, ws1, c1, out) := by
  have hac1 : ws1.auto_close = false :=
    ((parse_frame_header_ok _ _ _ _ _ hp).2.2.2.2.2.1).trans hac
  have hop' : g.unmask.opcode = OpCode.Close := (unmask_opcode g).trans hop
  unfold read_frame
  rw [hp]
  simp [hop', hac1]

theorem c7_witness :
    read_frame 1 { after_handshake with auto_close := false }
        [[0x88, 0x01, 0xAA]] []
      = .ok ((⟨true, .Close, none, [0xAA]⟩ : Frame).unmask,
             { after_handshake with auto_close := false }, [], []) :=
  c7_no_auto_close 0 _ _ _ ⟨true, .Close, none, [0xAA]⟩
    { after_handshake with auto_close := false } [] rfl rfl rfl

/-! ### C2: the mask field of surfaced frames -/

set_option maxRecDepth 8000 in
/-- C2 counterexample: a masked Binary frame surfaced by `read_frame` (on a
fresh connection, defaults for every policy flag) still carries
`mask = Some key`: `Frame::unmask` XORs the payload but never clears the
`mask` field, so the claim's "mask field equal to None" fails. -/
theorem c2_counterexample :
    (surfacedFrame (read_frame 1 after_handshake
        [[0x82, 0x83, 1, 2, 3, 4, 0, 0, 0]] [])).map Frame.mask
      = some (some [1, 2, 3, 4]) := by rfl

/-- C2 amended: every frame returned by `read_frame` is the unmasking of the
wire-parsed frame — the payload has been unmasked, but the `mask` field is
left exactly as parsed (`Some key` for a masked frame), not reset to
`None`. -/
theorem c2_mask_retained (fuel : Nat) (ws : WebSocket)
    (chunks : List (List Nat)) (out : List Nat) (f : Frame) (ws' : WebSocket)
    (c' : List (List Nat)) (o' : List Nat)
    (h : read_frame fuel ws chunks out = .ok (f, ws', c', o')) :
    ∃ g : Frame, f = g.unmask ∧ f.mask = g.mask := by
  obtain ⟨⟨g, hf, -, -⟩, -, -⟩ :=
    read_frame_surfaced fuel ws chunks out f ws' c' o' h
  exact ⟨g, hf, by rw [hf, unmask_mask]⟩

theorem c2_witness :
    ∃ g : Frame,
      (⟨true, .Binary, some [1, 2, 3, 4], [1, 2, 3]⟩ : Frame) = g.unmask ∧
      (⟨true, .Binary, some [1, 2, 3, 4], [1, 2, 3]⟩ : Frame).mask = g.mask :=
  c2_mask_retained 1 after_handshake [[0x82, 0x83, 1, 2, 3, 4, 0, 0, 0]] []
    ⟨true, .Binary, some [1, 2, 3, 4], [1, 2, 3]⟩ after_handshake [] []
    (by rfl)

/-! ### C3: control frames surfaced by read_frame -/

set_option maxRecDepth 20000 in
/-- C3 counterexample: a Close frame with declared payload length 126 (close
code 1000 followed by 124 bytes of "a") is parsed without any protocol error
and surfaced by `read_frame` on a fresh connection — the 125-byte control
frame bound is enforced only for Ping, so the claim fails for Close. -/
theorem c3_counterexample :
    (surfacedFrame (read_frame 1 after_handshake
        [[0x88, 0x7E, 0x00, 0x7E, 0x03, 0xE8] ++ List.replicate 124 97] [])).map
        (fun f => (is_control f.opcode, f.fin, f.payload.length))
      = some (true, true, 126) := by rfl

/-- C3 amended: every control frame successfully returned by `read_frame` has
`fin = true`, and a returned Ping frame additionally has payload length at
most 125 (a Ping with declared length above 125 raises a protocol error
during parsing); the length bound is not enforced for Close or Pong, so a
Close frame with a payload longer than 125 bytes can be surfaced. -/
theorem c3_control_fin (fuel : Nat) (ws : WebSocket) (chunks : List (List Nat))
    (out : List Nat) (f : Frame) (ws' : WebSocket) (c' : List (List Nat))
    (o' : List Nat)
    (h : read_frame fuel ws chunks out = .ok (f, ws', c', o'))
    (hc : is_control f.opcode = true) :
    f.fin = true ∧ (f.opcode = .Ping → f.payload.length ≤ 125) := by
  obtain ⟨⟨g, hf, hctrl, hping⟩, -, -⟩ :=
    read_frame_surfaced fuel ws chunks out f ws' c' o' h
  subst hf
  refine ⟨?_, ?_⟩
  · rw [unmask_fin]
    exact hctrl (by rwa [unmask_opcode] at hc)
  · intro hp
    rw [unmask_payload_length]
    exact hping (by rwa [unmask_opcode] at hp)

theorem c3_witness :
    (⟨true, .Ping, none, [0x42]⟩ : Frame).fin = true ∧
      ((⟨true, .Ping, none, [0x42]⟩ : Frame).opcode = .Ping →
        (⟨true, .Ping, none, [0x42]⟩ : Frame).payload.length ≤ 125) :=
  c3_control_fin 1 { after_handshake with auto_pong := false }
    [[0x89, 0x01, 0x42]] [] ⟨true, .Ping, none, [0x42]⟩
    { after_handshake with auto_pong := false } [] [] (by rfl) (by rfl)

/-! ### C10: UTF-8 validation of Text frames -/

/-- C10: a Text frame with `fin = true` surfaced by `read_frame` always has a
valid-UTF-8 payload; a parsed final Text frame whose (unmasked) payload is
not valid UTF-8 makes `read_frame` fail with the invalid-utf-8 error; and a
parsed Text frame with `fin = false` is surfaced without validation. -/
theorem c10_text_utf8 :
    (∀ (fuel : Nat) (ws : WebSocket) (chunks : List (List Nat))
       (out : List Nat) (f : Frame) (ws' : WebSocket) (c' : List (List Nat))
       (o' : List Nat),
       read_frame fuel ws chunks out = .ok (f, ws', c', o') →
       f.opcode = .Text → f.fin = true → f.is_utf8 = true) ∧
    (∀ (fuel : Nat) (ws : WebSocket) (chunks : List (List Nat))
       (out : List Nat) (g : Frame) (ws1 : WebSocket) (c1 : List (List Nat)),
       parse_frame_header ws chunks = .ok (g, ws1, c1) →
       g.unmask.opcode = .Text → g.unmask.fin = true →
       g.unmask.is_utf8 = false →
       read_frame (fuel + 1) ws chunks out = .error .invalidUtf8) ∧
    (∀ (fuel : Nat) (ws : WebSocket) (chunks : List (List Nat))
       (out : List Nat) (g : Frame) (ws1 : WebSocket) (c1 : List (List Nat)),
       parse_frame_header ws chunks = .ok (g, ws1, c1) →
       g.unmask.opcode = .Text → g.unmask.fin = false →
       read_frame (fuel + 1) ws chunks out = .ok (g.unmask, ws1, c1, out)) := by
  refine ⟨?_, ?_, ?_⟩
  · intro fuel ws chunks out f ws' c' o' h ht hfin
    exact (read_frame_surfaced fuel ws chunks out f ws' c' o' h).2.1 ht hfin
  · intro fuel ws chunks out g ws1 c1 hp hop hfin hbad
    simp only [read_frame]
    rw [hp]
    try simp only []
    simp only [hop]
    rw [if_pos (by simp [hfin, hbad])]
  · intro fuel ws chunks out g ws1 c1 hp hop hfin
    simp only [read_frame]
    rw [hp]
    try simp only []
    simp only [hop]
    rw [if_neg (by simp [hfin])]

theorem c10_witness :
    (⟨true, .Text, none, [65]⟩ : Frame).is_utf8 = true ∧
      read_frame 1 after_handshake [[0x81, 0x01, 0xFF]] []
        = .error .invalidUtf8 ∧
      read_frame 1 after_handshake [[0x01, 0x01, 0xFF]] []
        = .ok ((⟨false, .Text, none, [0xFF]⟩ : Frame).unmask,
               after_handshake, [], []) :=
  ⟨c10_text_utf8.1 1 after_handshake [[0x81, 0x01, 0x41]] []
      ⟨true, .Text, none, [65]⟩ after_handshake [] [] (by rfl) rfl rfl,
   c10_text_utf8.2.1 0 after_handshake [[0x81, 0x01, 0xFF]] []
      ⟨true, .Text, none, [0xFF]⟩ after_handshake [] (by rfl) rfl rfl (by rfl),
   c10_text_utf8.2.2 0 after_handshake [[0x01, 0x01, 0xFF]] []
      ⟨false, .Text, none, [0xFF]⟩ after_handshake [] (by rfl) rfl rfl⟩

/-! ### C6: one-byte close payloads -/

/-- C6 counterexample: with `auto_close` disabled, a Close frame whose
payload has length exactly 1 is surfaced successfully by `read_frame`
instead of failing with the invalid-close-frame error, so the claim fails
as stated over all configurations. -/
theorem c6_counterexample :
    (surfacedFrame (read_frame 1 { after_handshake with auto_close := false }
        [[0x88, 0x01, 0xAA]] [])).map (fun f => (f.opcode, f.payload))
      = some (.Close, [0xAA]) := by rfl

/-- C6 amended: when `auto_close` is enabled, a received Close frame whose
unmasked payload has length exactly 1 makes `read_frame` fail with the
invalid-close-frame error and the frame is not surfaced; with `auto_close`
disabled such a frame is surfaced as-is. -/
theorem c6_close_len_one (fuel : Nat) (ws : WebSocket)
    (chunks : List (List Nat)) (out : List Nat) (g : Frame) (ws1 : WebSocket)
    (c1 : List (List Nat))
    (hac : ws.auto_close = true)
    (hp : parse_frame_header ws chunks = .ok (g, ws1, c1))
    (hop : g.opcode = .Close)
    (hlen : g.payload.length = 1) :
    read_frame (fuel + 1) ws chunks out = .error .invalidCloseFrame := by
  have hac1 : ws1.auto_close = true :=
    ((parse_frame_header_ok _ _ _ _ _ hp).2.2.2.2.2.1).trans hac
  have hop' : g.unmask.opcode = OpCode.Close := (unmask_opcode g).trans hop
  have hlen' : g.unmask.payload.length = 1 :=
    (unmask_payload_length g).trans hlen
  simp only [read_frame]
  rw [hp]
  try simp only []
  simp only [hop']
  rw [if_pos hac1]
  rw [if_neg (by simp [hlen'] : ¬g.unmask.payload.length = 0)]
  rw [if_pos hlen']

theorem c6_witness :
    read_frame 1 after_handshake [[0x88, 0x01, 0x00]] []
      = .error .invalidCloseFrame :=
  c6_close_len_one 0 after_handshake [[0x88, 0x01, 0x00]] []
    ⟨true, .Close, none, [0]⟩ after_handshake [] rfl (by rfl) rfl rfl

/-! ### C9: auto-pong -/

/-- C9 counterexample: with the vectored policy flag enabled (and `auto_pong`
on, as by default), a parsed Ping does not lead to a Pong being written:
`write_frame` routes the Pong through `Frame::writev`, which reaches the
`todo!()` branch for the Pong opcode, so `read_frame` aborts with nothing
written instead of replying and continuing the loop. -/
theorem c9_counterexample :
    read_frame 2 { after_handshake with vectored := true } [[0x89, 0x00]] []
      = .error .todoUnimplemented := by rfl

/-- C9 amended: when `auto_pong` is enabled, no partial write is pending and
vectored mode is off, a parsed Ping frame makes `read_frame` write a Pong
frame with `fin = true` and the same (unmasked) payload to the stream and
continue the loop with the next inbound frame, without surfacing the Ping
(with a pending partial write, `write_frame` drains the tail instead and no
Pong is emitted; in vectored mode the Pong write reaches the unimplemented
`writev` branch). -/
theorem c9_auto_pong (fuel : Nat) (ws : WebSocket) (chunks : List (List Nat))
    (out : List Nat) (g : Frame) (ws1 : WebSocket) (c1 : List (List Nat))
    (hap : ws.auto_pong = true) (hpw : ws.partial_write = none)
    (hv : ws.vectored = false)
    (hp : parse_frame_header ws chunks = .ok (g, ws1, c1))
    (hop : g.opcode = .Ping) :
    (Frame.pong g.unmask.payload).fin = true ∧
    (Frame.pong g.unmask.payload).payload = g.unmask.payload ∧
    ∃ buf : List Nat,
      read_frame (fuel + 1) ws chunks out
        = read_frame fuel { ws1 with write_buffer := buf } c1
            (out ++ ((Frame.pong g.unmask.payload).fmt_head
              ++ g.unmask.payload)) := by
  obtain ⟨-, -, hwb, hpw1, hv1, -, hap1, -⟩ :=
    parse_frame_header_ok _ _ _ _ _ hp
  have hop' : g.unmask.opcode = OpCode.Ping := (unmask_opcode g).trans hop
  refine ⟨rfl, rfl,
    ((Frame.pong g.unmask.payload).write ws1.write_buffer).2, ?_⟩
  have hw : write_frame ws1 (Frame.pong g.unmask.payload)
      = .ok ({ ws1 with write_buffer :=
                ((Frame.pong g.unmask.payload).write ws1.write_buffer).2 },
             (Frame.pong g.unmask.payload).fmt_head ++ g.unmask.payload) := by
    unfold write_frame
    rw [hpw1.trans hpw]
    simp only [hv1.trans hv, if_false, Bool.false_eq_true]
    rw [frame_write_fst]
    rfl
  simp only [read_frame]
  rw [hp]
  try simp only []
  simp only [hop']
  rw [if_pos (hap1.trans hap)]
  rw [hw]

theorem c9_witness :
    (Frame.pong (⟨true, .Ping, some [0, 0, 0, 0], []⟩ : Frame).unmask.payload).fin
        = true ∧
    (Frame.pong (⟨true, .Ping, some [0, 0, 0, 0], []⟩ : Frame).unmask.payload).payload
        = (⟨true, .Ping, some [0, 0, 0, 0], []⟩ : Frame).unmask.payload ∧
    ∃ buf : List Nat,
      read_frame 2 after_handshake [[0x89, 0x80, 0, 0, 0, 0], [0x81, 0x01, 0x41]] []
        = read_frame 1 { after_handshake with write_buffer := buf }
            [[0x81, 0x01, 0x41]]
            ([] ++ ((Frame.pong
                (⟨true, .Ping, some [0, 0, 0, 0], []⟩ : Frame).unmask.payload).fmt_head
              ++ (⟨true, .Ping, some [0, 0, 0, 0], []⟩ : Frame).unmask.payload)) :=
  c9_auto_pong 1 after_handshake [[0x89, 0x80, 0, 0, 0, 0], [0x81, 0x01, 0x41]]
    [] ⟨true, .Ping, some [0, 0, 0, 0], []⟩ after_handshake [[0x81, 0x01, 0x41]]
    rfl rfl rfl (by rfl) rfl

/-! ### Round-trip machinery for C1 and C8 -/

theorem getD_take (l : List Nat) (n i : Nat) (h : i < n) :
    (l.take n).getD i 0 = l.getD i 0 := by
  simp [List.getD_eq_getElem?_getD, List.getElem?_take, h]

/-- A fill loop whose target is already met returns immediately. -/
theorem fillTo_done (fuel target : Nat) (acc : List Nat)
    (chunks : List (List Nat)) (hf : 0 < fuel) (h : target ≤ acc.length) :
    fillTo fuel target acc chunks = .ok (acc, chunks) := by
  obtain ⟨m, rfl⟩ : ∃ m, fuel = m + 1 := ⟨fuel - 1, by omega⟩
  unfold fillTo
  rw [if_pos h]

/-- A fill from an empty staging buffer out of a single chunk holding at
least `target` bytes: one read takes at most the 106-byte staging capacity
and pushes the remainder of the chunk back onto the stream. -/
theorem fillTo_single (fuel target : Nat) (c : List Nat) (hf : 2 ≤ fuel)
    (h1 : 1 ≤ target) (h2 : target ≤ 106) (h3 : target ≤ c.length) :
    fillTo fuel target [] [c]
      = .ok (c.take 106, if c.length ≤ 106 then [] else [c.drop 106]) := by
  obtain ⟨m, rfl⟩ : ∃ m, fuel = m + 1 + 1 := ⟨fuel - 2, by omega⟩
  have hlen : target ≤ (c.take 106).length := by
    simp only [List.length_take]
    omega
  unfold fillTo
  rw [if_neg (by simp only [List.length_nil]; omega)]
  simp only [List.length_nil, Nat.sub_zero, List.nil_append]
  rw [fillTo_done _ _ _ _ (by omega) hlen]
  by_cases hc : c.length ≤ 106
  · have hd : (c.drop 106).isEmpty = true := by
      simp [List.isEmpty_iff, List.drop_eq_nil_iff, hc]
    rw [hd, if_pos hc]
    rfl
  · have hd : (c.drop 106).isEmpty = false := by
      cases he : (c.drop 106).isEmpty
      · rfl
      · have hnil := List.isEmpty_iff.mp he
        rw [List.drop_eq_nil_iff] at hnil
        exact absurd hnil hc
    rw [hd, if_neg hc]
    rfl

/-- `readExact` reading one chunk whole. -/
theorem readExact_exact (fuel : Nat) (n : Nat) (c : List Nat) (hf : 0 < fuel)
    (h0 : 0 < n) (h : c.length = n) :
    readExact fuel n [c] = .ok (c, []) := by
  obtain ⟨m, rfl⟩ : ∃ m, fuel = m + 1 := ⟨fuel - 1, by omega⟩
  subst h
  unfold readExact
  rw [if_neg (by omega)]
  simp only []
  rw [if_pos (Nat.le_refl _)]
  simp [List.take_length]

/-- The tail of the parser on the staged bytes `head ++ payload ++ rest` of
an unmasked frame whose declared length is the payload's: the frame comes
back exactly, and the trailing bytes go to `read_buffer`. -/
theorem parseTail_encode (ws0 : WebSocket) (maxSize : Nat) (fin : Bool)
    (op : OpCode) (extra : Nat) (head payload rest : List Nat)
    (hhead : head.length = 2 + extra)
    (hctrl : is_control op = true → fin = true)
    (hping : op = .Ping → payload.length ≤ 125)
    (hmax : payload.length < maxSize) :
    parseTail ws0 maxSize fin op false extra payload.length
      (head ++ payload ++ rest) []
      = .ok (⟨fin, op, none, payload⟩,
             (if rest.isEmpty then ws0
              else { ws0 with read_buffer := some rest }),
             []) := by
  have hguard : (is_control op && !fin) = false := by
    cases hco : is_control op
    · rfl
    · rw [hctrl hco]
      rfl
  have hreq : 2 + extra + 0 + payload.length = (head ++ payload).length := by
    simp [List.length_append, hhead]
  simp only [parseTail]
  rw [hguard]
  simp only [Bool.false_eq_true, if_false]
  rw [if_neg (by rintro ⟨hp, hgt⟩; exact absurd hgt (by simp [hping hp]))]
  rw [if_neg (by omega : ¬maxSize ≤ payload.length)]
  rw [hreq]
  rw [if_neg (by simp only [List.length_append]; omega :
    ¬((head ++ payload) ++ rest).length < (head ++ payload).length)]
  by_cases hr : rest.isEmpty
  · have hre : rest = [] := List.isEmpty_iff.mp hr
    subst hre
    rw [if_neg (by simp)]
    rw [if_pos hr]
    simp only [List.append_nil]
    rw [List.take_length]
    have hdrop : (head ++ payload).length - payload.length = head.length := by
      simp [List.length_append]
    rw [hdrop, List.drop_left]
  · have hre : rest ≠ [] := fun he => by simp [he] at hr
    rw [if_pos (by
      simp only [List.length_append]
      have : 0 < rest.length := List.length_pos.mpr hre
      omega)]
    rw [if_neg hr]
    rw [List.take_left, List.drop_left]
    have hdrop : (head ++ payload).length - payload.length = head.length := by
      simp [List.length_append]
    rw [hdrop, List.drop_left]

/-- The tail of the parser when the staging buffer filled to its 106-byte
capacity and the rest of the frame is still on the stream: the extend path
reads the remainder exactly and returns the frame, leaving `read_buffer`
empty. -/
theorem parseTail_encode_large (ws0 : WebSocket) (maxSize : Nat) (fin : Bool)
    (op : OpCode) (extra : Nat) (head payload : List Nat)
    (hhead : head.length = 2 + extra)
    (hctrl : is_control op = true → fin = true)
    (hping : op = .Ping → payload.length ≤ 125)
    (hmax : payload.length < maxSize)
    (hacc : 106 < head.length + payload.length) :
    parseTail ws0 maxSize fin op false extra payload.length
      ((head ++ payload).take 106) [(head ++ payload).drop 106]
      = .ok (⟨fin, op, none, payload⟩, ws0, []) := by
  have hguard : (is_control op && !fin) = false := by
    cases hco : is_control op
    · rfl
    · rw [hctrl hco]
      rfl
  have hlenhp : (head ++ payload).length = head.length + payload.length :=
    List.length_append _ _
  have hreq : 2 + extra + 0 + payload.length = (head ++ payload).length := by
    simp [List.length_append, hhead]
  have htake : ((head ++ payload).take 106).length = 106 := by
    simp only [List.length_take]
    omega
  simp only [parseTail]
  rw [hguard]
  simp only [Bool.false_eq_true, if_false]
  rw [if_neg (by rintro ⟨hp, hgt⟩; exact absurd hgt (by simp [hping hp]))]
  rw [if_neg (by omega : ¬maxSize ≤ payload.length)]
  rw [hreq]
  rw [if_pos (by rw [htake]; omega)]
  rw [readExact_exact _ _ _ (by omega) (by rw [htake]; omega)
    (by simp only [List.length_drop, htake]; try omega)]
  simp only []
  rw [List.take_append_drop]
  have hdrop : (head ++ payload).length - payload.length = head.length := by
    simp [List.length_append]
  rw [hdrop, List.drop_left]

/-- The head byte `(fin as u8) << 7 | opcode` decodes back into its parts,
with the reserved bits clear. -/
theorem headByte_facts (fin : Bool) (op : OpCode) :
    ((cond fin 128 0 + op.toU8) &&& 64 = 0) ∧
    ((cond fin 128 0 + op.toU8) &&& 32 = 0) ∧
    ((cond fin 128 0 + op.toU8) &&& 16 = 0) ∧
    OpCode.tryFrom ((cond fin 128 0 + op.toU8) &&& 15) = .ok op ∧
    decide ((cond fin 128 0 + op.toU8) &&& 128 ≠ 0) = fin := by
  cases fin <;> cases op <;>
    exact ⟨by decide, by decide, by decide, rfl, by decide⟩

/-- Bytes below 128 have the mask bit clear and survive the 7-bit mask. -/
theorem lowByte_facts (n : Nat) (h : n ≤ 127) :
    n &&& 127 = n ∧ n &&& 128 = 0 := by
  have hall : ∀ m : Fin 128, (m.val &&& 127 = m.val) ∧ (m.val &&& 128 = 0) := by
    decide
  exact hall ⟨n, by omega⟩

/-- Header walk: once the first fill has staged exactly the encoding of an
(unmasked) valid frame followed by trailing bytes `rest`, the parser decodes
the frame back — equal in `fin`, `opcode` and `payload`, with `mask = none` —
and stashes exactly `rest` in `read_buffer`. -/
theorem parse_encode_core (ws : WebSocket) (fin : Bool) (op : OpCode)
    (mk : Option (List Nat)) (payload : List Nat) (rest : List Nat)
    (chunks : List (List Nat))
    (hfill : fillTo (chunks.length + 2) 2 (ws.read_buffer.getD []) chunks
      = .ok (encodeFrame ⟨fin, op, mk, payload⟩ ++ rest, []))
    (hctrl : is_control op = true → fin = true ∧ payload.length ≤ 125)
    (hmax : payload.length < ws.max_message_size)
    (husize : ws.max_message_size ≤ 2 ^ 64) :
    parse_frame_header ws chunks
      = .ok (⟨fin, op, none, payload⟩,
             (if rest.isEmpty then { ws with read_buffer := none }
              else { ws with read_buffer := some rest }),
             []) := by
  obtain ⟨h64, h32, h16, htf, hfin⟩ := headByte_facts fin op
  have hctrl' : is_control op = true → fin = true := fun hco => (hctrl hco).1
  have hping' : op = .Ping → payload.length ≤ 125 := fun hp =>
    (hctrl (by rw [hp]; rfl)).2
  have hL64 : payload.length < 2 ^ 64 := by omega
  simp only [parse_frame_header]
  rw [hfill]
  try simp only []
  by_cases hc1 : payload.length < 126
  · have henc : encodeFrame ⟨fin, op, mk, payload⟩ ++ rest
        = (cond fin 128 0 + op.toU8) :: payload.length :: (payload ++ rest) := by
      simp [encodeFrame, Frame.fmt_head, hc1]
    rw [henc]
    have hb0 : ((cond fin 128 0 + op.toU8) :: payload.length ::
        (payload ++ rest)).getD 0 0 = cond fin 128 0 + op.toU8 := rfl
    have hb1 : ((cond fin 128 0 + op.toU8) :: payload.length ::
        (payload ++ rest)).getD 1 0 = payload.length := rfl
    rw [hb0, hb1]
    rw [if_neg (by simp [h64, h32, h16])]
    rw [htf]
    try simp only []
    obtain ⟨hlow127, hlow128⟩ := lowByte_facts payload.length (by omega)
    have hmasked : decide (payload.length &&& 128 ≠ 0) = false := by
      simp [hlow128]
    rw [hlow127, hmasked]
    rw [if_neg (by omega : ¬payload.length = 126)]
    rw [if_neg (by omega : ¬payload.length = 127)]
    rw [if_neg (by omega : ¬(0 : Nat) < 0)]
    try simp only []
    rw [if_neg (by omega : ¬(0 : Nat) = 2)]
    rw [if_neg (by omega : ¬(0 : Nat) = 8)]
    simp only [Bool.false_eq_true, if_false]
    try simp only []
    rw [hfin]
    exact parseTail_encode { ws with read_buffer := none } ws.max_message_size
      fin op 0 [cond fin 128 0 + op.toU8, payload.length] payload rest rfl
      hctrl' hping' hmax
  · by_cases hc2 : payload.length < 65536
    · have henc : encodeFrame ⟨fin, op, mk, payload⟩ ++ rest
          = (cond fin 128 0 + op.toU8) :: 126 :: (payload.length / 256 % 256) ::
            (payload.length % 256) :: (payload ++ rest) := by
        simp [encodeFrame, Frame.fmt_head, hc1, hc2, be2]
      rw [henc]
      have hb0 : ((cond fin 128 0 + op.toU8) :: 126 ::
          (payload.length / 256 % 256) :: (payload.length % 256) ::
          (payload ++ rest)).getD 0 0 = cond fin 128 0 + op.toU8 := rfl
      have hb1 : ((cond fin 128 0 + op.toU8) :: 126 ::
          (payload.length / 256 % 256) :: (payload.length % 256) ::
          (payload ++ rest)).getD 1 0 = (126 : Nat) := rfl
      have hd2 : ((cond fin 128 0 + op.toU8) :: 126 ::
          (payload.length / 256 % 256) :: (payload.length % 256) ::
          (payload ++ rest)).getD 2 0 = payload.length / 256 % 256 := rfl
      have hd3 : ((cond fin 128 0 + op.toU8) :: 126 ::
          (payload.length / 256 % 256) :: (payload.length % 256) ::
          (payload ++ rest)).getD 3 0 = payload.length % 256 := rfl
      rw [hb0, hb1]
      rw [if_neg (by simp [h64, h32, h16])]
      rw [htf]
      try simp only []
      have h127 : (126 : Nat) &&& 127 = 126 := by decide
      have hmasked : decide ((126 : Nat) &&& 128 ≠ 0) = false := by decide
      rw [h127, hmasked]
      rw [if_pos (rfl : (126 : Nat) = 126)]
      rw [if_pos (by omega : (0 : Nat) < 2)]
      rw [fillTo_done _ _ _ _ (by omega)
        (by simp only [List.length_cons]; omega)]
      try simp only []
      try rw [if_pos (rfl : (2 : Nat) = 2)]
      try simp only [if_true]
      rw [hd2, hd3]
      have hlen_eq : payload.length / 256 % 256 * 256 + payload.length % 256
          = payload.length := by omega
      rw [hlen_eq]
      simp only [Bool.false_eq_true, if_false]
      try simp only []
      rw [hfin]
      exact parseTail_encode { ws with read_buffer := none } ws.max_message_size
        fin op 2 [cond fin 128 0 + op.toU8, 126, payload.length / 256 % 256,
          payload.length % 256] payload rest rfl hctrl' hping' hmax
    · have henc : encodeFrame ⟨fin, op, mk, payload⟩ ++ rest
          = (cond fin 128 0 + op.toU8) :: 127 ::
            (payload.length / 256 ^ 7 % 256) :: (payload.length / 256 ^ 6 % 256) ::
            (payload.length / 256 ^ 5 % 256) :: (payload.length / 256 ^ 4 % 256) ::
            (payload.length / 256 ^ 3 % 256) :: (payload.length / 256 ^ 2 % 256) ::
            (payload.length / 256 % 256) :: (payload.length % 256) ::
            (payload ++ rest) := by
        simp [encodeFrame, Frame.fmt_head, hc1, hc2, be8]
      rw [henc]
      have hb0 : ((cond fin 128 0 + op.toU8) :: 127 ::
          (payload.length / 256 ^ 7 % 256) :: (payload.length / 256 ^ 6 % 256) ::
          (payload.length / 256 ^ 5 % 256) :: (payload.length / 256 ^ 4 % 256) ::
          (payload.length / 256 ^ 3 % 256) :: (payload.length / 256 ^ 2 % 256) ::
          (payload.length / 256 % 256) :: (payload.length % 256) ::
          (payload ++ rest)).getD 0 0 = cond fin 128 0 + op.toU8 := rfl
      have hb1 : ((cond fin 128 0 + op.toU8) :: 127 ::
          (payload.length / 256 ^ 7 % 256) :: (payload.length / 256 ^ 6 % 256) ::
          (payload.length / 256 ^ 5 % 256) :: (payload.length / 256 ^ 4 % 256) ::
          (payload.length / 256 ^ 3 % 256) :: (payload.length / 256 ^ 2 % 256) ::
          (payload.length / 256 % 256) :: (payload.length % 256) ::
          (payload ++ rest)).getD 1 0 = (127 : Nat) := rfl
      rw [hb0, hb1]
      rw [if_neg (by simp [h64, h32, h16])]
      rw [htf]
      try simp only []
      have h127 : (127 : Nat) &&& 127 = 127 := by decide
      have hmasked : decide ((127 : Nat) &&& 128 ≠ 0) = false := by decide
      rw [h127, hmasked]
      rw [if_neg (by omega : ¬(127 : Nat) = 126)]
      rw [if_pos (rfl : (127 : Nat) = 127)]
      rw [if_pos (by omega : (0 : Nat) < 8)]
      rw [fillTo_done _ _ _ _ (by omega)
        (by simp only [List.length_cons]; omega)]
      try simp only []
      try rw [if_neg (by omega : ¬(8 : Nat) = 2)]
      try rw [if_pos (rfl : (8 : Nat) = 8)]
      try simp only [if_true]
      have hsum : ((cond fin 128 0 + op.toU8) :: 127 ::
          (payload.length / 256 ^ 7 % 256) :: (payload.length / 256 ^ 6 % 256) ::
          (payload.length / 256 ^ 5 % 256) :: (payload.length / 256 ^ 4 % 256) ::
          (payload.length / 256 ^ 3 % 256) :: (payload.length / 256 ^ 2 % 256) ::
          (payload.length / 256 % 256) :: (payload.length % 256) ::
          (payload ++ rest)).getD 2 0 * 256 ^ 7 +
          ((cond fin 128 0 + op.toU8) :: 127 ::
          (payload.length / 256 ^ 7 % 256) :: (payload.length / 256 ^ 6 % 256) ::
          (payload.length / 256 ^ 5 % 256) :: (payload.length / 256 ^ 4 % 256) ::
          (payload.length / 256 ^ 3 % 256) :: (payload.length / 256 ^ 2 % 256) ::
          (payload.length / 256 % 256) :: (payload.length % 256) ::
          (payload ++ rest)).getD 3 0 * 256 ^ 6 +
          ((cond fin 128 0 + op.toU8) :: 127 ::
          (payload.length / 256 ^ 7 % 256) :: (payload.length / 256 ^ 6 % 256) ::
          (payload.length / 256 ^ 5 % 256) :: (payload.length / 256 ^ 4 % 256) ::
          (payload.length / 256 ^ 3 % 256) :: (payload.length / 256 ^ 2 % 256) ::
          (payload.length / 256 % 256) :: (payload.length % 256) ::
          (payload ++ rest)).getD 4 0 * 256 ^ 5 +
          ((cond fin 128 0 + op.toU8) :: 127 ::
          (payload.length / 256 ^ 7 % 256) :: (payload.length / 256 ^ 6 % 256) ::
          (payload.length / 256 ^ 5 % 256) :: (payload.length / 256 ^ 4 % 256) ::
          (payload.length / 256 ^ 3 % 256) :: (payload.length / 256 ^ 2 % 256) ::
          (payload.length / 256 % 256) :: (payload.length % 256) ::
          (payload ++ rest)).getD 5 0 * 256 ^ 4 +
          ((cond fin 128 0 + op.toU8) :: 127 ::
          (payload.length / 256 ^ 7 % 256) :: (payload.length / 256 ^ 6 % 256) ::
          (payload.length / 256 ^ 5 % 256) :: (payload.length / 256 ^ 4 % 256) ::
          (payload.length / 256 ^ 3 % 256) :: (payload.length / 256 ^ 2 % 256) ::
          (payload.length / 256 % 256) :: (payload.length % 256) ::
          (payload ++ rest)).getD 6 0 * 256 ^ 3 +
          ((cond fin 128 0 + op.toU8) :: 127 ::
          (payload.length / 256 ^ 7 % 256) :: (payload.length / 256 ^ 6 % 256) ::
          (payload.length / 256 ^ 5 % 256) :: (payload.length / 256 ^ 4 % 256) ::
          (payload.length / 256 ^ 3 % 256) :: (payload.length / 256 ^ 2 % 256) ::
          (payload.length / 256 % 256) :: (payload.length % 256) ::
          (payload ++ rest)).getD 7 0 * 256 ^ 2 +
          ((cond fin 128 0 + op.toU8) :: 127 ::
          (payload.length / 256 ^ 7 % 256) :: (payload.length / 256 ^ 6 % 256) ::
          (payload.length / 256 ^ 5 % 256) :: (payload.length / 256 ^ 4 % 256) ::
          (payload.length / 256 ^ 3 % 256) :: (payload.length / 256 ^ 2 % 256) ::
          (payload.length / 256 % 256) :: (payload.length % 256) ::
          (payload ++ rest)).getD 8 0 * 256 +
          ((cond fin 128 0 + op.toU8) :: 127 ::
          (payload.length / 256 ^ 7 % 256) :: (payload.length / 256 ^ 6 % 256) ::
          (payload.length / 256 ^ 5 % 256) :: (payload.length / 256 ^ 4 % 256) ::
          (payload.length / 256 ^ 3 % 256) :: (payload.length / 256 ^ 2 % 256) ::
          (payload.length / 256 % 256) :: (payload.length % 256) ::
          (payload ++ rest)).getD 9 0
          = payload.length := by
        show payload.length / 256 ^ 7 % 256 * 256 ^ 7 +
          payload.length / 256 ^ 6 % 256 * 256 ^ 6 +
          payload.length / 256 ^ 5 % 256 * 256 ^ 5 +
          payload.length / 256 ^ 4 % 256 * 256 ^ 4 +
          payload.length / 256 ^ 3 % 256 * 256 ^ 3 +
          payload.length / 256 ^ 2 % 256 * 256 ^ 2 +
          payload.length / 256 % 256 * 256 + payload.length % 256
          = payload.length
        omega
      rw [hsum]
      simp only [Bool.false_eq_true, if_false]
      try simp only []
      rw [hfin]
      exact parseTail_encode { ws with read_buffer := none } ws.max_message_size
        fin op 8 [cond fin 128 0 + op.toU8, 127,
          payload.length / 256 ^ 7 % 256, payload.length / 256 ^ 6 % 256,
          payload.length / 256 ^ 5 % 256, payload.length / 256 ^ 4 % 256,
          payload.length / 256 ^ 3 % 256, payload.length / 256 ^ 2 % 256,
          payload.length / 256 % 256, payload.length % 256] payload rest rfl
        hctrl' hping' hmax

/-- Header walk when the encoded frame overflows the 106-byte staging
buffer: the first fill stages the first 106 bytes and pushes the rest back,
the extend path reads the remainder exactly, and the parser returns the
frame, `read_buffer` left empty. -/
theorem parse_encode_big (ws : WebSocket) (fin : Bool) (op : OpCode)
    (mk : Option (List Nat)) (payload : List Nat)
    (hrb : ws.read_buffer = none)
    (hctrl : is_control op = true → fin = true ∧ payload.length ≤ 125)
    (hmax : payload.length < ws.max_message_size)
    (husize : ws.max_message_size ≤ 2 ^ 64)
    (hbig : 106 < (encodeFrame ⟨fin, op, mk, payload⟩).length) :
    parse_frame_header ws [encodeFrame ⟨fin, op, mk, payload⟩]
      = .ok (⟨fin, op, none, payload⟩, { ws with read_buffer := none }, []) := by
  obtain ⟨h64, h32, h16, htf, hfin⟩ := headByte_facts fin op
  have hctrl' : is_control op = true → fin = true := fun hco => (hctrl hco).1
  have hping' : op = .Ping → payload.length ≤ 125 := fun hp =>
    (hctrl (by rw [hp]; rfl)).2
  have hL64 : payload.length < 2 ^ 64 := by omega
  simp only [parse_frame_header]
  rw [hrb]
  simp only [Option.getD_none]
  rw [fillTo_single _ _ _ (by omega) (by omega) (by omega) (by omega)]
  rw [if_neg (by omega)]
  try simp only []
  by_cases hc1 : payload.length < 126
  · have hlen1 : (encodeFrame ⟨fin, op, mk, payload⟩).length
        = 2 + payload.length := by
      simp [encodeFrame, Frame.fmt_head, hc1]
      omega
    have henc : encodeFrame ⟨fin, op, mk, payload⟩
        = (cond fin 128 0 + op.toU8) :: payload.length :: payload := by
      simp [encodeFrame, Frame.fmt_head, hc1]
    rw [henc]
    have hb0 : (((cond fin 128 0 + op.toU8) :: payload.length ::
        payload).take 106).getD 0 0 = cond fin 128 0 + op.toU8 := rfl
    have hb1 : (((cond fin 128 0 + op.toU8) :: payload.length ::
        payload).take 106).getD 1 0 = payload.length := rfl
    rw [hb0, hb1]
    rw [if_neg (by simp [h64, h32, h16])]
    rw [htf]
    try simp only []
    obtain ⟨hlow127, hlow128⟩ := lowByte_facts payload.length (by omega)
    have hmasked : decide (payload.length &&& 128 ≠ 0) = false := by
      simp [hlow128]
    rw [hlow127, hmasked]
    rw [if_neg (by omega : ¬payload.length = 126)]
    rw [if_neg (by omega : ¬payload.length = 127)]
    rw [if_neg (by omega : ¬(0 : Nat) < 0)]
    try simp only []
    try rw [if_neg (by omega : ¬(0 : Nat) = 2)]
    try rw [if_neg (by omega : ¬(0 : Nat) = 8)]
    simp only [Bool.false_eq_true, if_false]
    try simp only []
    rw [hfin]
    exact parseTail_encode_large { ws with read_buffer := none }
      ws.max_message_size fin op 0 [cond fin 128 0 + op.toU8, payload.length]
      payload rfl hctrl' hping' hmax
      (by simp only [List.length_cons, List.length_nil]; omega)
  · by_cases hc2 : payload.length < 65536
    · have hlen1 : (encodeFrame ⟨fin, op, mk, payload⟩).length
          = 4 + payload.length := by
        simp [encodeFrame, Frame.fmt_head, hc1, hc2, be2]
        omega
      have henc : encodeFrame ⟨fin, op, mk, payload⟩
          = (cond fin 128 0 + op.toU8) :: 126 :: (payload.length / 256 % 256) ::
            (payload.length % 256) :: payload := by
        simp [encodeFrame, Frame.fmt_head, hc1, hc2, be2]
      rw [henc]
      have hb0 : (((cond fin 128 0 + op.toU8) :: 126 ::
          (payload.length / 256 % 256) :: (payload.length % 256) ::
          payload).take 106).getD 0 0 = cond fin 128 0 + op.toU8 := rfl
      have hb1 : (((cond fin 128 0 + op.toU8) :: 126 ::
          (payload.length / 256 % 256) :: (payload.length % 256) ::
          payload).take 106).getD 1 0 = (126 : Nat) := rfl
      rw [hb0, hb1]
      rw [if_neg (by simp [h64, h32, h16])]
      rw [htf]
      try simp only []
      have h127 : (126 : Nat) &&& 127 = 126 := by decide
      have hmasked : decide ((126 : Nat) &&& 128 ≠ 0) = false := by decide
      rw [h127, hmasked]
      rw [if_pos (rfl : (126 : Nat) = 126)]
      rw [if_pos (by omega : (0 : Nat) < 2)]
      rw [fillTo_done _ _ _ _ (by omega)
        (by simp only [List.length_take, List.length_cons]; omega)]
      try simp only []
      try rw [if_pos (rfl : (2 : Nat) = 2)]
      try simp only [if_true]
      have hsum : (((cond fin 128 0 + op.toU8) :: 126 ::
          (payload.length / 256 % 256) :: (payload.length % 256) ::
          payload).take 106).getD 2 0 * 256 +
          (((cond fin 128 0 + op.toU8) :: 126 ::
          (payload.length / 256 % 256) :: (payload.length % 256) ::
          payload).take 106).getD 3 0 = payload.length := by
        show payload.length / 256 % 256 * 256 + payload.length % 256
          = payload.length
        omega
      rw [hsum]
      simp only [Bool.false_eq_true, if_false]
      try simp only []
      rw [hfin]
      exact parseTail_encode_large { ws with read_buffer := none }
        ws.max_message_size fin op 2 [cond fin 128 0 + op.toU8, 126,
          payload.length / 256 % 256, payload.length % 256] payload rfl
        hctrl' hping' hmax (by simp only [List.length_cons, List.length_nil]; omega)
    · have hlen1 : (encodeFrame ⟨fin, op, mk, payload⟩).length
          = 10 + payload.length := by
        simp [encodeFrame, Frame.fmt_head, hc1, hc2, be8]
        omega
      have henc : encodeFrame ⟨fin, op, mk, payload⟩
          = (cond fin 128 0 + op.toU8) :: 127 ::
            (payload.length / 256 ^ 7 % 256) :: (payload.length / 256 ^ 6 % 256) ::
            (payload.length / 256 ^ 5 % 256) :: (payload.length / 256 ^ 4 % 256) ::
            (payload.length / 256 ^ 3 % 256) :: (payload.length / 256 ^ 2 % 256) ::
            (payload.length / 256 % 256) :: (payload.length % 256) :: payload := by
        simp [encodeFrame, Frame.fmt_head, hc1, hc2, be8]
      rw [henc]
      have hb0 : (((cond fin 128 0 + op.toU8) :: 127 ::
          (payload.length / 256 ^ 7 % 256) :: (payload.length / 256 ^ 6 % 256) ::
          (payload.length / 256 ^ 5 % 256) :: (payload.length / 256 ^ 4 % 256) ::
          (payload.length / 256 ^ 3 % 256) :: (payload.length / 256 ^ 2 % 256) ::
          (payload.length / 256 % 256) :: (payload.length % 256) ::
          payload).take 106).getD 0 0 = cond fin 128 0 + op.toU8 := rfl
      have hb1 : (((cond fin 128 0 + op.toU8) :: 127 ::
          (payload.length / 256 ^ 7 % 256) :: (payload.length / 256 ^ 6 % 256) ::
          (payload.length / 256 ^ 5 % 256) :: (payload.length / 256 ^ 4 % 256) ::
          (payload.length / 256 ^ 3 % 256) :: (payload.length / 256 ^ 2 % 256) ::
          (payload.length / 256 % 256) :: (payload.length % 256) ::
          payload).take 106).getD 1 0 = (127 : Nat) := rfl
      rw [hb0, hb1]
      rw [if_neg (by simp [h64, h32, h16])]
      rw [htf]
      try simp only []
      have h127 : (127 : Nat) &&& 127 = 127 := by decide
      have hmasked : decide ((127 : Nat) &&& 128 ≠ 0) = false := by decide
      rw [h127, hmasked]
      rw [if_neg (by omega : ¬(127 : Nat) = 126)]
      rw [if_pos (rfl : (127 : Nat) = 127)]
      rw [if_pos (by omega : (0 : Nat) < 8)]
      rw [fillTo_done _ _ _ _ (by omega)
        (by simp only [List.length_take, List.length_cons]; omega)]
      try simp only []
      try rw [if_neg (by omega : ¬(8 : Nat) = 2)]
      try rw [if_pos (rfl : (8 : Nat) = 8)]
      try simp only [if_true]
      have hsum : (((cond fin 128 0 + op.toU8) :: 127 ::
          (payload.length / 256 ^ 7 % 256) :: (payload.length / 256 ^ 6 % 256) ::
          (payload.length / 256 ^ 5 % 256) :: (payload.length / 256 ^ 4 % 256) ::
          (payload.length / 256 ^ 3 % 256) :: (payload.length / 256 ^ 2 % 256) ::
          (payload.length / 256 % 256) :: (payload.length % 256) ::
          payload).take 106).getD 2 0 * 256 ^ 7 +
          (((cond fin 128 0 + op.toU8) :: 127 ::
          (payload.length / 256 ^ 7 % 256) :: (payload.length / 256 ^ 6 % 256) ::
          (payload.length / 256 ^ 5 % 256) :: (payload.length / 256 ^ 4 % 256) ::
          (payload.length / 256 ^ 3 % 256) :: (payload.length / 256 ^ 2 % 256) ::
          (payload.length / 256 % 256) :: (payload.length % 256) ::
          payload).take 106).getD 3 0 * 256 ^ 6 +
          (((cond fin 128 0 + op.toU8) :: 127 ::
          (payload.length / 256 ^ 7 % 256) :: (payload.length / 256 ^ 6 % 256) ::
          (payload.length / 256 ^ 5 % 256) :: (payload.length / 256 ^ 4 % 256) ::
          (payload.length / 256 ^ 3 % 256) :: (payload.length / 256 ^ 2 % 256) ::
          (payload.length / 256 % 256) :: (payload.length % 256) ::
          payload).take 106).getD 4 0 * 256 ^ 5 +
          (((cond fin 128 0 + op.toU8) :: 127 ::
          (payload.length / 256 ^ 7 % 256) :: (payload.length / 256 ^ 6 % 256) ::
          (payload.length / 256 ^ 5 % 256) :: (payload.length / 256 ^ 4 % 256) ::
          (payload.length / 256 ^ 3 % 256) :: (payload.length / 256 ^ 2 % 256) ::
          (payload.length / 256 % 256) :: (payload.length % 256) ::
          payload).take 106).getD 5 0 * 256 ^ 4 +
          (((cond fin 128 0 + op.toU8) :: 127 ::
          (payload.length / 256 ^ 7 % 256) :: (payload.length / 256 ^ 6 % 256) ::
          (payload.length / 256 ^ 5 % 256) :: (payload.length / 256 ^ 4 % 256) ::
          (payload.length / 256 ^ 3 % 256) :: (payload.length / 256 ^ 2 % 256) ::
          (payload.length / 256 % 256) :: (payload.length % 256) ::
          payload).take 106).getD 6 0 * 256 ^ 3 +
          (((cond fin 128 0 + op.toU8) :: 127 ::
          (payload.length / 256 ^ 7 % 256) :: (payload.length / 256 ^ 6 % 256) ::
          (payload.length / 256 ^ 5 % 256) :: (payload.length / 256 ^ 4 % 256) ::
          (payload.length / 256 ^ 3 % 256) :: (payload.length / 256 ^ 2 % 256) ::
          (payload.length / 256 % 256) :: (payload.length % 256) ::
          payload).take 106).getD 7 0 * 256 ^ 2 +
          (((cond fin 128 0 + op.toU8) :: 127 ::
          (payload.length / 256 ^ 7 % 256) :: (payload.length / 256 ^ 6 % 256) ::
          (payload.length / 256 ^ 5 % 256) :: (payload.length / 256 ^ 4 % 256) ::
          (payload.length / 256 ^ 3 % 256) :: (payload.length / 256 ^ 2 % 256) ::
          (payload.length / 256 % 256) :: (payload.length % 256) ::
          payload).take 106).getD 8 0 * 256 +
          (((cond fin 128 0 + op.toU8) :: 127 ::
          (payload.length / 256 ^ 7 % 256) :: (payload.length / 256 ^ 6 % 256) ::
          (payload.length / 256 ^ 5 % 256) :: (payload.length / 256 ^ 4 % 256) ::
          (payload.length / 256 ^ 3 % 256) :: (payload.length / 256 ^ 2 % 256) ::
          (payload.length / 256 % 256) :: (payload.length % 256) ::
          payload).take 106).getD 9 0 = payload.length := by
        show payload.length / 256 ^ 7 % 256 * 256 ^ 7 +
          payload.length / 256 ^ 6 % 256 * 256 ^ 6 +
          payload.length / 256 ^ 5 % 256 * 256 ^ 5 +
          payload.length / 256 ^ 4 % 256 * 256 ^ 4 +
          payload.length / 256 ^ 3 % 256 * 256 ^ 3 +
          payload.length / 256 ^ 2 % 256 * 256 ^ 2 +
          payload.length / 256 % 256 * 256 + payload.length % 256
          = payload.length
        omega
      rw [hsum]
      simp only [Bool.false_eq_true, if_false]
      try simp only []
      rw [hfin]
      exact parseTail_encode_large { ws with read_buffer := none }
        ws.max_message_size fin op 8 [cond fin 128 0 + op.toU8, 127,
          payload.length / 256 ^ 7 % 256, payload.length / 256 ^ 6 % 256,
          payload.length / 256 ^ 5 % 256, payload.length / 256 ^ 4 % 256,
          payload.length / 256 ^ 3 % 256, payload.length / 256 ^ 2 % 256,
          payload.length / 256 % 256, payload.length % 256] payload rfl
        hctrl' hping' hmax (by simp only [List.length_cons, List.length_nil]; omega)

/-- An encoded frame is at least two bytes long. -/
theorem encodeFrame_len2 (F : Frame) : 2 ≤ (encodeFrame F).length := by
  have hh : 2 ≤ F.fmt_head.length := by
    simp only [Frame.fmt_head]
    split
    · simp
    · split <;> simp [be2, be8]
  simp only [encodeFrame, List.length_append]
  omega

/-! ### C1: decode after encode -/

/-- C1: for every valid frame F (opcode from the six-member set — the only
inhabitants of `OpCode` —, payload length below `max_message_size` (itself a
`usize`), control frames with `fin = true` and payload length ≤ 125),
parsing the byte sequence produced by encoding F (the head emitted by
`fmt_head` followed by the payload bytes) yields a frame equal to F in
`fin`, `opcode` and `payload`; the parsed frame's mask is `None` (the mask
field is the one place the round trip may differ).  The connection state and
the stream come back fully consumed and unchanged. -/
theorem c1_decode_encode (ws : WebSocket) (F : Frame)
    (hrb : ws.read_buffer = none)
    (hctrl : is_control F.opcode = true → F.fin = true ∧ F.payload.length ≤ 125)
    (hmax : F.payload.length < ws.max_message_size)
    (husize : ws.max_message_size ≤ 2 ^ 64) :
    parse_frame_header ws [encodeFrame F]
      = .ok (⟨F.fin, F.opcode, none, F.payload⟩, ws, []) := by
  have hws : ({ ws with read_buffer := none } : WebSocket) = ws := by
    obtain ⟨a, b, c, d, e, f, g⟩ := ws
    simp only at hrb
    subst hrb
    rfl
  obtain ⟨fin, op, mk, payload⟩ := F
  by_cases hbig : 106 < (encodeFrame ⟨fin, op, mk, payload⟩).length
  · have h := parse_encode_big ws fin op mk payload hrb hctrl hmax husize hbig
    rw [hws] at h
    exact h
  · have hsmall : (encodeFrame ⟨fin, op, mk, payload⟩).length ≤ 106 := by
      omega
    have hfill : fillTo ([encodeFrame ⟨fin, op, mk, payload⟩].length + 2) 2
        (ws.read_buffer.getD []) [encodeFrame ⟨fin, op, mk, payload⟩]
        = .ok (encodeFrame ⟨fin, op, mk, payload⟩ ++ [], []) := by
      rw [hrb]
      simp only [Option.getD_none]
      rw [fillTo_single _ _ _ (by omega) (by omega) (by omega)
        (encodeFrame_len2 _)]
      rw [if_pos hsmall]
      rw [List.take_of_length_le hsmall, List.append_nil]
    have h := parse_encode_core ws fin op mk payload []
      [encodeFrame ⟨fin, op, mk, payload⟩] hfill hctrl hmax husize
    simp only [List.isEmpty_nil, if_true] at h
    rw [hws] at h
    exact h

theorem c1_witness :
    parse_frame_header after_handshake
        [encodeFrame ⟨true, .Text, none, [104, 105]⟩]
      = .ok (⟨true, .Text, none, [104, 105]⟩, after_handshake, []) :=
  c1_decode_encode after_handshake ⟨true, .Text, none, [104, 105]⟩ rfl
    (by decide) (by decide) (by decide)

/-! ### C8: over-read bytes carry over to the next parse -/

/-- A Binary frame delivered by the parser with no mask is surfaced by
`read_frame` unchanged, with nothing written. -/
theorem read_frame_binary_step (fuel : Nat) (ws : WebSocket)
    (chunks : List (List Nat)) (out : List Nat) (g : Frame) (ws1 : WebSocket)
    (c1 : List (List Nat))
    (hp : parse_frame_header ws chunks = .ok (g, ws1, c1))
    (hop : g.opcode = .Binary) (hmk : g.mask = none) :
    read_frame (fuel + 1) ws chunks out = .ok (g, ws1, c1, out) := by
  have hu : g.unmask = g := unmask_of_none g hmk
  simp only [read_frame]
  rw [hp]
  try simp only []
  rw [hu]
  simp only [hop]

/-- C8: when the header read pulls in a whole second frame beyond the first
frame's end, exactly those trailing bytes are stored in `read_buffer` and
prepended to the next header parse: two complete (unmasked Binary) frames
delivered in one transport read are returned by two successive `read_frame`
calls with no byte lost, the stream being fully consumed. -/
theorem c8_two_frames (ws : WebSocket) (F1 F2 : Frame) (out : List Nat)
    (hrb : ws.read_buffer = none)
    (hop1 : F1.opcode = .Binary) (hop2 : F2.opcode = .Binary)
    (hmax1 : F1.payload.length < ws.max_message_size)
    (hmax2 : F2.payload.length < ws.max_message_size)
    (husize : ws.max_message_size ≤ 2 ^ 64)
    (hlen : (encodeFrame F1).length + (encodeFrame F2).length ≤ 106) :
    read_frame 1 ws [encodeFrame F1 ++ encodeFrame F2] out
      = .ok (⟨F1.fin, F1.opcode, none, F1.payload⟩,
             { ws with read_buffer := some (encodeFrame F2) }, [], out) ∧
    read_frame 1 { ws with read_buffer := some (encodeFrame F2) } [] out
      = .ok (⟨F2.fin, F2.opcode, none, F2.payload⟩,
             { ws with read_buffer := none }, [], out) := by
  have hne2 : (encodeFrame F2).isEmpty = false := by
    cases he : (encodeFrame F2).isEmpty
    · rfl
    · have h2 := encodeFrame_len2 F2
      rw [List.isEmpty_iff.mp he] at h2
      simp at h2
  obtain ⟨fin1, op1, mk1, payload1⟩ := F1
  obtain ⟨fin2, op2, mk2, payload2⟩ := F2
  simp only at hop1 hop2
  subst hop1
  subst hop2
  constructor
  · have hfill : fillTo
        ([encodeFrame ⟨fin1, .Binary, mk1, payload1⟩
          ++ encodeFrame ⟨fin2, .Binary, mk2, payload2⟩].length + 2) 2
        (ws.read_buffer.getD [])
        [encodeFrame ⟨fin1, .Binary, mk1, payload1⟩
          ++ encodeFrame ⟨fin2, .Binary, mk2, payload2⟩]
        = .ok (encodeFrame ⟨fin1, .Binary, mk1, payload1⟩
            ++ encodeFrame ⟨fin2, .Binary, mk2, payload2⟩, []) := by
      rw [hrb]
      simp only [Option.getD_none]
      rw [fillTo_single _ _ _ (by omega) (by omega) (by omega)
        (by simp only [List.length_append]
            have := encodeFrame_len2 ⟨fin1, .Binary, mk1, payload1⟩
            omega)]
      rw [if_pos (by simp only [List.length_append]; omega)]
      rw [List.take_of_length_le (by simp only [List.length_append]; omega)]
    have hp := parse_encode_core ws fin1 .Binary mk1 payload1
      (encodeFrame ⟨fin2, .Binary, mk2, payload2⟩)
      [encodeFrame ⟨fin1, .Binary, mk1, payload1⟩
        ++ encodeFrame ⟨fin2, .Binary, mk2, payload2⟩]
      hfill (by intro h; exact absurd h (by decide)) hmax1 husize
    rw [hne2, if_neg (by simp)] at hp
    exact read_frame_binary_step 0 _ _ _ _ _ _ hp rfl rfl
  · have hfill : fillTo (([] : List (List Nat)).length + 2) 2
        (({ ws with read_buffer := some (encodeFrame ⟨fin2, .Binary, mk2, payload2⟩) } : WebSocket).read_buffer.getD []) []
        = .ok (encodeFrame ⟨fin2, .Binary, mk2, payload2⟩ ++ [], []) := by
      rw [List.append_nil]
      exact fillTo_done _ _ _ _ (by omega) (encodeFrame_len2 _)
    have hp := parse_encode_core
      { ws with read_buffer := some (encodeFrame ⟨fin2, .Binary, mk2, payload2⟩) }
      fin2 .Binary mk2 payload2 [] [] hfill
      (by intro h; exact absurd h (by decide)) hmax2 husize
    simp only [List.isEmpty_nil, if_true] at hp
    exact read_frame_binary_step 0 _ _ _ _ _ _ hp rfl rfl

theorem c8_witness :
    read_frame 1 after_handshake
        [encodeFrame ⟨true, .Binary, none, [7]⟩
          ++ encodeFrame ⟨true, .Binary, none, [8, 9]⟩] []
      = .ok (⟨true, .Binary, none, [7]⟩,
             { after_handshake with read_buffer := some (encodeFrame ⟨true, .Binary, none, [8, 9]⟩) }, [], []) ∧
    read_frame 1 { after_handshake with read_buffer := some (encodeFrame ⟨true, .Binary, none, [8, 9]⟩) } [] []
      = .ok (⟨true, .Binary, none, [8, 9]⟩,
             { after_handshake with read_buffer := none }, [], []) :=
  c8_two_frames after_handshake ⟨true, .Binary, none, [7]⟩
    ⟨true, .Binary, none, [8, 9]⟩ [] rfl rfl rfl (by decide) (by decide)
    (by decide) (by decide)

end FastWS
